import Mathlib

/-!
Verification of the sensors-to-mqtt acquisition pipeline.

The development embeds the core of the repository in Lean:
the scalar adaptive filter (src/filters/kalman_1d.rs), the MPU6500 driver
computations (src/sensors/i2c/mpu6500.rs: calibration, bring-up register
writes, the per-tick read, angle derivation) and the service loop
(src/service.rs: per-tick sensor reading and the publisher reconnect gate).

Numeric conventions: the Rust code computes with f64; the embedding uses ℚ
for the filter pipeline (whose operations are all field operations, so the
embedding is the exact-real idealization of the float code) and ℝ for the
angle computations (which use sqrt and atan). Machine integers (i16, i32,
u32, u8) are embedded as ℤ and ℕ with explicit truncation or fault modelling
where the Rust arithmetic can fault.
-/

/-- Rust f64::clamp restricted to the case lo ≤ hi: below lo gives lo,
above hi gives hi, otherwise the value itself. -/
def clampQ (v lo hi : ℚ) : ℚ := max lo (min v hi)

/-- State of KalmanFilter1D (src/filters/kalman_1d.rs). The Rust field
named after initialization state is rendered here as isInit. -/
structure KalmanFilter1D where
  q : ℚ
  r : ℚ
  p : ℚ
  x : ℚ
  k : ℚ
  isInit : Bool
  dead_zone : ℚ
  last_output : ℚ
deriving DecidableEq

/-- KalmanFilter1D::new(q, r): p starts at r, dead zone defaults to 0.01. -/
def KalmanFilter1D.new (q r : ℚ) : KalmanFilter1D :=
  { q := q, r := r, p := r, x := 0, k := 0, isInit := false,
    dead_zone := 1/100, last_output := 0 }

/-- KalmanFilter1D::with_dead_zone. -/
def KalmanFilter1D.with_dead_zone (f : KalmanFilter1D) (threshold : ℚ) :
    KalmanFilter1D :=
  { f with dead_zone := threshold }

/-- KalmanFilter1D::update, translated line by line from the source.
Returns (output, new state). Constants: 1.5 = 3/2, 0.8 = 4/5, 0.1 = 1/10. -/
def KalmanFilter1D.update (f : KalmanFilter1D) (measurement : ℚ) :
    ℚ × KalmanFilter1D :=
  if f.isInit = false then
    (measurement,
      { f with x := measurement, last_output := measurement, isInit := true })
  else
    let p1 := f.p + f.q
    let k1 := p1 / (p1 + f.r)
    let delta := |measurement - f.x|
    let alpha := if delta > 1 then k1 * (3/2) else k1 * (4/5)
    let x1 := f.x + alpha * (measurement - f.x)
    let p2 := clampQ (p1 * (1 - k1)) (f.r * (1/10)) (f.r * 10)
    let change := |x1 - f.last_output|
    let output := if change < f.dead_zone then f.last_output else x1
    (output, { f with p := p2, k := k1, x := x1, last_output := output })

/-- Reference update written from the words of the specification (claim C1):
if uninitialized, set x := m and last_output := m, mark initialized, return m;
otherwise p := p + q, k := p/(p + r), alpha := 1.5·k when the measurement
delta exceeds 1.0 and 0.8·k otherwise, x := x + alpha·(m − x),
p := clamp(p·(1 − k), 0.1·r, 10·r), and return last_output unchanged inside
the dead zone, else set last_output := x and return x. -/
def KalmanFilter1D.updateRef (f : KalmanFilter1D) (m : ℚ) :
    ℚ × KalmanFilter1D :=
  if f.isInit = false then
    (m, { f with x := m, last_output := m, isInit := true })
  else
    let p1 := f.p + f.q
    let k1 := p1 / (p1 + f.r)
    let alpha := if |m - f.x| > 1 then (3/2) * k1 else (4/5) * k1
    let x1 := f.x + alpha * (m - f.x)
    let p2 := clampQ (p1 * (1 - k1)) ((1/10) * f.r) (10 * f.r)
    if |x1 - f.last_output| < f.dead_zone then
      (f.last_output, { f with p := p2, k := k1, x := x1 })
    else
      (x1, { f with p := p2, k := k1, x := x1, last_output := x1 })

/-- Folding a list of measurements through the filter, collecting outputs. -/
def KalmanFilter1D.runUpdates (f : KalmanFilter1D) :
    List ℚ → List ℚ × KalmanFilter1D
  | [] => ([], f)
  | m :: ms =>
    let step := f.update m
    let rest := step.2.runUpdates ms
    (step.1 :: rest.1, rest.2)

/-- C1: KalmanFilter1D::update agrees, state and output, with the reference
definition transcribed from the specification: initialization sets x and
last_output to the measurement and returns it; afterwards p := p + q,
k := p/(p + r), alpha := 1.5·k for measurement deltas above 1.0 and 0.8·k
otherwise, x := x + alpha·(m − x), p := clamp(p·(1 − k), 0.1·r, 10·r), and
the dead-zone gate returns last_output unchanged when |x − last_output| is
below dead_zone and otherwise commits and returns the new x. -/
theorem kalman_update_matches_reference (f : KalmanFilter1D) (m : ℚ) :
    f.update m = f.updateRef m := by
  unfold KalmanFilter1D.update KalmanFilter1D.updateRef
  cases hf : f.isInit with
  | false => simp
  | true =>
    simp only [Bool.true_eq_false, if_false]
    ring_nf
    split_ifs <;> rfl

/-- update never changes the configuration field q. -/
theorem KalmanFilter1D.update_q (f : KalmanFilter1D) (m : ℚ) :
    (f.update m).2.q = f.q := by
  unfold KalmanFilter1D.update; split <;> rfl

/-- update never changes the configuration field r. -/
theorem KalmanFilter1D.update_r (f : KalmanFilter1D) (m : ℚ) :
    (f.update m).2.r = f.r := by
  unfold KalmanFilter1D.update; split <;> rfl

/-- update never changes the dead zone. -/
theorem KalmanFilter1D.update_dead_zone (f : KalmanFilter1D) (m : ℚ) :
    (f.update m).2.dead_zone = f.dead_zone := by
  unfold KalmanFilter1D.update; split <;> rfl

/-- After any update the filter is initialized. -/
theorem KalmanFilter1D.update_isInit (f : KalmanFilter1D) (m : ℚ) :
    (f.update m).2.isInit = true := by
  unfold KalmanFilter1D.update
  split
  · rfl
  · next h => simp only [Bool.not_eq_false] at h; exact h

/-- Arithmetic core of the dead-zone hold: one smoothed step with gain
factor k·0.8 (0 < k < 1) keeps the estimate inside the dead zone around
last_output, or exactly on it, provided the measurement is within the dead
zone of last_output. -/
theorem hold_arith (xv lv mv dz k : ℚ) (hk0 : 0 < k) (hk1 : k < 1)
    (hx : |xv - lv| < dz ∨ xv = lv) (hm : |mv - lv| ≤ dz) :
    |xv + k * (4/5) * (mv - xv) - lv| < dz ∨
      xv + k * (4/5) * (mv - xv) = lv := by
  have hb0 : 0 < k * (4/5) := by linarith
  have hb1 : k * (4/5) < 1 := by linarith
  have key : xv + k * (4/5) * (mv - xv) - lv
      = (1 - k * (4/5)) * (xv - lv) + k * (4/5) * (mv - lv) := by ring
  have habs : |xv + k * (4/5) * (mv - xv) - lv|
      ≤ (1 - k * (4/5)) * |xv - lv| + k * (4/5) * |mv - lv| := by
    rw [key]
    refine (abs_add _ _).trans ?_
    rw [abs_mul, abs_mul, abs_of_nonneg (by linarith : (0:ℚ) ≤ 1 - k * (4/5)),
      abs_of_nonneg hb0.le]
  rcases hx with hlt | heq
  · left
    have hA : (1 - k * (4/5)) * |xv - lv| < (1 - k * (4/5)) * dz :=
      mul_lt_mul_of_pos_left hlt (by linarith)
    have hB : k * (4/5) * |mv - lv| ≤ k * (4/5) * dz :=
      mul_le_mul_of_nonneg_left hm hb0.le
    have hsum : (1 - k * (4/5)) * dz + k * (4/5) * dz = dz := by ring
    linarith
  · subst heq
    by_cases hdz : 0 < dz
    · left
      have hB : k * (4/5) * |mv - xv| ≤ k * (4/5) * dz :=
        mul_le_mul_of_nonneg_left hm hb0.le
      have hC : k * (4/5) * dz < 1 * dz := mul_lt_mul_of_pos_right hb1 hdz
      have hz : |xv + k * (4/5) * (mv - xv) - xv| = k * (4/5) * |mv - xv| := by
        have : xv + k * (4/5) * (mv - xv) - xv = k * (4/5) * (mv - xv) := by ring
        rw [this, abs_mul, abs_of_nonneg hb0.le]
      rw [hz]
      linarith
    · right
      have hmv : |mv - xv| = 0 := le_antisymm (by linarith) (abs_nonneg _)
      have : mv - xv = 0 := abs_eq_zero.mp hmv
      have : mv = xv := by linarith
      subst this
      ring

/-- One update of an initialized filter with dead_zone ≤ 1/2 and a
measurement within the dead zone of last_output returns last_output,
keeps last_output, keeps p positive, and keeps the estimate inside the
dead zone (or exactly on last_output). -/
theorem update_hold_step (f : KalmanFilter1D) (m : ℚ)
    (hinit : f.isInit = true) (hq : 0 ≤ f.q) (hr : 0 < f.r) (hp : 0 < f.p)
    (hdz : f.dead_zone ≤ 1/2)
    (hx : |f.x - f.last_output| < f.dead_zone ∨ f.x = f.last_output)
    (hm : |m - f.last_output| ≤ f.dead_zone) :
    (f.update m).1 = f.last_output ∧
      (f.update m).2.last_output = f.last_output ∧
      0 < (f.update m).2.p ∧
      (|(f.update m).2.x - f.last_output| < f.dead_zone ∨
        (f.update m).2.x = f.last_output) := by
  obtain ⟨q0, r0, p0, x0, k0, i0, dz0, l0⟩ := f
  simp only at hinit hq hr hp hdz hx hm
  subst hinit
  have hdz0 : 0 ≤ dz0 := le_trans (abs_nonneg _) hm
  have hxl : |x0 - l0| ≤ dz0 := by
    rcases hx with h | h
    · exact h.le
    · rw [h, sub_self, abs_zero]; exact hdz0
  have hdelta : |m - x0| ≤ 1 := by
    have h1 : |m - x0| ≤ |m - l0| + |l0 - x0| := abs_sub_le m l0 x0
    have h2 : |l0 - x0| = |x0 - l0| := abs_sub_comm l0 x0
    linarith
  have hden : 0 < p0 + q0 + r0 := by linarith
  have hk0 : 0 < (p0 + q0) / (p0 + q0 + r0) :=
    div_pos (by linarith) hden
  have hk1 : (p0 + q0) / (p0 + q0 + r0) < 1 :=
    (div_lt_one hden).mpr (by linarith)
  have hplo : 0 < r0 * (1/10) := by linarith
  have hpleh : r0 * (1/10) ≤ r0 * 10 := by linarith
  have hppos : 0 < clampQ ((p0 + q0) * (1 - (p0 + q0) / (p0 + q0 + r0)))
      (r0 * (1/10)) (r0 * 10) :=
    lt_of_lt_of_le hplo (le_max_left _ _)
  have harith := hold_arith x0 l0 m dz0 ((p0 + q0) / (p0 + q0 + r0)) hk0 hk1 hx hm
  unfold KalmanFilter1D.update
  simp only [Bool.true_eq_false, if_false]
  split_ifs with h1 hA h2
  · exact absurd h1 (not_lt.mpr hdelta)
  · exact absurd h1 (not_lt.mpr hdelta)
  · exact ⟨rfl, rfl, hppos, Or.inl h2⟩
  · rcases harith with hlt | heq
    · exact absurd hlt h2
    · exact ⟨heq, heq, hppos, Or.inr heq⟩

/-- Inductive dead-zone hold over a whole measurement list for an
initialized filter with dead_zone ≤ 1/2. -/
theorem runUpdates_hold (ms : List ℚ) : ∀ f : KalmanFilter1D,
    f.isInit = true → 0 ≤ f.q → 0 < f.r → 0 < f.p → f.dead_zone ≤ 1/2 →
    (|f.x - f.last_output| < f.dead_zone ∨ f.x = f.last_output) →
    (∀ m ∈ ms, |m - f.last_output| ≤ f.dead_zone) →
    (f.runUpdates ms).1 = List.replicate ms.length f.last_output := by
  induction ms with
  | nil => intros; rfl
  | cons m ms ih =>
    intro f hinit hq hr hp hdz hx hms
    obtain ⟨ho, hl, hppos, hxinv⟩ :=
      update_hold_step f m hinit hq hr hp hdz hx (hms m (by simp))
    show (f.update m).1 :: ((f.update m).2.runUpdates ms).1
        = f.last_output :: List.replicate ms.length f.last_output
    rw [ho]
    have htail := ih (f.update m).2 (f.update_isInit m)
      (by rw [f.update_q m]; exact hq) (by rw [f.update_r m]; exact hr)
      hppos (by rw [f.update_dead_zone m]; exact hdz)
      (by rw [hl, f.update_dead_zone m]; exact hxinv)
      (by intro m2 hm2; rw [hl, f.update_dead_zone m]; exact hms m2 (by simp [hm2]))
    rw [htail, hl]

/-- C6 counterexample: with configuration (q = 1000, r = 1, dead_zone = 10),
after the initial update at 0 the input 9 is within the dead zone of
last_output (which is 0), yet the second update does not return the previous
output 0: the adaptive 1.5·k branch overshoots out of the dead zone. -/
theorem kalman_dead_zone_hold_cex :
    (((KalmanFilter1D.new 1000 1).with_dead_zone 10).update 0).1 = 0 ∧
    (((KalmanFilter1D.new 1000 1).with_dead_zone 10).update 0).2.last_output = 0 ∧
    |(9:ℚ) - 0| ≤ 10 ∧
    ((((KalmanFilter1D.new 1000 1).with_dead_zone 10).update 0).2.update 9).1 ≠ 0 := by
  norm_num [KalmanFilter1D.new, KalmanFilter1D.with_dead_zone,
    KalmanFilter1D.update, clampQ, abs_of_nonneg, abs_of_nonpos]

/-- C6 (amended): for every configuration with q ≥ 0, r > 0 and
dead_zone ≤ 0.5 (so the adaptive fast branch cannot fire inside the dead
zone), after the initial update at v every subsequent update whose input
stays within dead_zone of last_output returns exactly the previous output,
so the whole output list is constantly v. -/
theorem kalman_dead_zone_hold (q r dz v : ℚ) (ms : List ℚ)
    (hq : 0 ≤ q) (hr : 0 < r) (hdz : dz ≤ 1/2)
    (hms : ∀ m ∈ ms, |m - v| ≤ dz) :
    ((((KalmanFilter1D.new q r).with_dead_zone dz).update v).2.runUpdates ms).1
      = List.replicate ms.length v := by
  have hstate : (((KalmanFilter1D.new q r).with_dead_zone dz).update v).2
      = { q := q, r := r, p := r, x := v, k := 0, isInit := true,
          dead_zone := dz, last_output := v } := by
    simp [KalmanFilter1D.new, KalmanFilter1D.with_dead_zone, KalmanFilter1D.update]
  rw [hstate]
  exact runUpdates_hold ms _ rfl hq hr hr hdz (Or.inr rfl) hms

/-- C6 witness: the dead-zone scenario of the specification, instantiating
the hold theorem at (q = 0.1, r = 0.1, dead_zone = 0.1) with initial update
1.0 and held input 1.05, together with the strictly-increasing third update
at 1.2 computed concretely (167/150 > 1). -/
theorem kalman_dead_zone_hold_witness :
    ((((KalmanFilter1D.new (1/10) (1/10)).with_dead_zone (1/10)).update 1).2.runUpdates
        [21/20]).1 = List.replicate 1 1 ∧
    (((((KalmanFilter1D.new (1/10) (1/10)).with_dead_zone (1/10)).update 1).2.update
        (21/20)).2.update (6/5)).1 = 167/150 ∧ (1:ℚ) < 167/150 := by
  refine ⟨kalman_dead_zone_hold (1/10) (1/10) (1/10) 1 [21/20] (by norm_num)
    (by norm_num) (by norm_num) ?_, ?_, by norm_num⟩
  · intro m hm
    simp only [List.mem_singleton] at hm
    subst hm
    rw [show (21:ℚ)/20 - 1 = 1/20 by norm_num, abs_of_nonneg (by norm_num)]
    norm_num
  · norm_num [KalmanFilter1D.new, KalmanFilter1D.with_dead_zone,
      KalmanFilter1D.update, clampQ, abs_of_nonneg, abs_of_nonpos]

/-- clampQ lands in [lo, hi] whenever lo ≤ hi. -/
theorem clampQ_bounds (v lo hi : ℚ) (h : lo ≤ hi) :
    lo ≤ clampQ v lo hi ∧ clampQ v lo hi ≤ hi :=
  ⟨le_max_left _ _, max_le h (min_le_right _ _)⟩

/-- Any update of an already-initialized filter leaves p clamped into
[0.1·r, 10·r]. -/
theorem update_p_bounds (f : KalmanFilter1D) (m : ℚ)
    (hinit : f.isInit = true) (hr : 0 < f.r) :
    f.r * (1/10) ≤ (f.update m).2.p ∧ (f.update m).2.p ≤ f.r * 10 := by
  obtain ⟨q0, r0, p0, x0, k0, i0, dz0, l0⟩ := f
  simp only at hinit hr
  subst hinit
  unfold KalmanFilter1D.update
  simp only [Bool.true_eq_false, if_false]
  exact clampQ_bounds _ _ _ (by linarith)

/-- runUpdates keeps the filter initialized. -/
theorem runUpdates_isInit (ms : List ℚ) : ∀ f : KalmanFilter1D,
    f.isInit = true → (f.runUpdates ms).2.isInit = true := by
  induction ms with
  | nil => intro f h; exact h
  | cons m ms ih => intro f _; exact ih (f.update m).2 (f.update_isInit m)

/-- runUpdates never changes r. -/
theorem runUpdates_r (ms : List ℚ) : ∀ f : KalmanFilter1D,
    (f.runUpdates ms).2.r = f.r := by
  induction ms with
  | nil => intro f; rfl
  | cons m ms ih =>
    intro f
    show ((f.update m).2.runUpdates ms).2.r = f.r
    rw [ih (f.update m).2, f.update_r m]

/-- p stays inside [0.1·r, 10·r] along any run from a state already in
bounds. -/
theorem runUpdates_p_bounds (ms : List ℚ) : ∀ f : KalmanFilter1D,
    f.isInit = true → 0 < f.r →
    f.r * (1/10) ≤ f.p → f.p ≤ f.r * 10 →
    f.r * (1/10) ≤ (f.runUpdates ms).2.p ∧ (f.runUpdates ms).2.p ≤ f.r * 10 := by
  induction ms with
  | nil => intro f _ _ h1 h2; exact ⟨h1, h2⟩
  | cons m ms ih =>
    intro f hinit hr _ _
    show f.r * (1/10) ≤ ((f.update m).2.runUpdates ms).2.p ∧
      ((f.update m).2.runUpdates ms).2.p ≤ f.r * 10
    have hb := update_p_bounds f m hinit hr
    have hr2 : (f.update m).2.r = f.r := f.update_r m
    have := ih (f.update m).2 (f.update_isInit m) (by rw [hr2]; exact hr)
      (by rw [hr2]; exact hb.1) (by rw [hr2]; exact hb.2)
    rwa [hr2] at this

/-- C7: for every configuration with r > 0, every state reached by a
non-empty update sequence from a fresh filter has its covariance p inside
[0.1·r, 10·r], and any further update preserves that bound. -/
theorem kalman_covariance_bounds (q r dz m : ℚ) (ms : List ℚ) (hr : 0 < r) :
    (r * (1/10) ≤
        ((((KalmanFilter1D.new q r).with_dead_zone dz).runUpdates (m :: ms)).2).p ∧
      ((((KalmanFilter1D.new q r).with_dead_zone dz).runUpdates (m :: ms)).2).p
        ≤ r * 10) ∧
    ∀ m2 : ℚ,
      r * (1/10) ≤
          (((((KalmanFilter1D.new q r).with_dead_zone dz).runUpdates
            (m :: ms)).2).update m2).2.p ∧
        (((((KalmanFilter1D.new q r).with_dead_zone dz).runUpdates
            (m :: ms)).2).update m2).2.p ≤ r * 10 := by
  have hstate : (((KalmanFilter1D.new q r).with_dead_zone dz).update m).2
      = { q := q, r := r, p := r, x := m, k := 0, isInit := true,
          dead_zone := dz, last_output := m } := by
    simp [KalmanFilter1D.new, KalmanFilter1D.with_dead_zone, KalmanFilter1D.update]
  have hrun : (((KalmanFilter1D.new q r).with_dead_zone dz).runUpdates (m :: ms)).2
      = (KalmanFilter1D.runUpdates
          { q := q, r := r, p := r, x := m, k := 0, isInit := true,
            dead_zone := dz, last_output := m } ms).2 := by
    show ((((KalmanFilter1D.new q r).with_dead_zone dz).update m).2.runUpdates ms).2
      = _
    rw [hstate]
  have hmain := runUpdates_p_bounds ms
    { q := q, r := r, p := r, x := m, k := 0, isInit := true,
      dead_zone := dz, last_output := m }
    rfl hr (by simp; linarith) (by simp; linarith)
  simp only at hmain
  rw [hrun]
  refine ⟨hmain, ?_⟩
  intro m2
  have hfin_init := runUpdates_isInit ms
    { q := q, r := r, p := r, x := m, k := 0, isInit := true,
      dead_zone := dz, last_output := m } rfl
  have hfin_r := runUpdates_r ms
    { q := q, r := r, p := r, x := m, k := 0, isInit := true,
      dead_zone := dz, last_output := m }
  simp only at hfin_r
  have hb := update_p_bounds _ m2 hfin_init (by rw [hfin_r]; exact hr)
  rwa [hfin_r] at hb

/-- C7 witness: concrete instance q = 1, r = 1, dead zone 0.01, run [5],
then a further update at 7. -/
theorem kalman_covariance_bounds_witness :
    ((1:ℚ) * (1/10) ≤
        ((((KalmanFilter1D.new 1 1).with_dead_zone (1/100)).runUpdates [5]).2).p ∧
      ((((KalmanFilter1D.new 1 1).with_dead_zone (1/100)).runUpdates [5]).2).p
        ≤ 1 * 10) ∧
    ∀ m2 : ℚ,
      (1:ℚ) * (1/10) ≤
          (((((KalmanFilter1D.new 1 1).with_dead_zone (1/100)).runUpdates
            [5]).2).update m2).2.p ∧
        (((((KalmanFilter1D.new 1 1).with_dead_zone (1/100)).runUpdates
            [5]).2).update m2).2.p ≤ 1 * 10 :=
  kalman_covariance_bounds 1 1 (1/100) 5 [] (by norm_num)

/-- One raw six-axis reading of the MPU6500 (read_raw: three accel then
three gyro axes, each an i16 embedded into ℤ). -/
structure RawSample where
  ax : ℤ
  ay : ℤ
  az : ℤ
  gx : ℤ
  gy : ℤ
  gz : ℤ
deriving DecidableEq

/-- CalibrationData: accel and gyro zero-offsets (i32 embedded into ℤ),
as (x, y, z) triples. -/
structure CalibrationData where
  accel_offsets : ℤ × ℤ × ℤ
  gyro_offsets : ℤ × ℤ × ℤ
deriving DecidableEq

/-- The 1 g raw count subtracted from the Z accel offset, by accel range
(source: the match in MPU6500::calibrate). -/
def gravityCount (accel_range : ℕ) : ℤ :=
  match accel_range with
  | 16 => 2048
  | 8 => 4096
  | 4 => 8192
  | 2 => 16384
  | _ => 2048

/-- The same table written from the words of the specification
(claim C3): 2048 for ±16 g, 4096 for ±8 g, 8192 for ±4 g, 16384 for ±2 g,
2048 for any other range value. -/
def gravityCountRef (accel_range : ℕ) : ℤ :=
  if accel_range = 16 then 2048
  else if accel_range = 8 then 4096
  else if accel_range = 4 then 8192
  else if accel_range = 2 then 16384
  else 2048

/-- The source table and the specification table agree. -/
theorem gravityCount_eq_ref (n : ℕ) : gravityCount n = gravityCountRef n := by
  unfold gravityCount gravityCountRef
  split <;> simp_all

/-- The running six-axis sums of the calibration loop after n samples
(the loop in MPU6500::calibrate adds sample t to all six accumulators). -/
def calibSums (raw : ℕ → RawSample) : ℕ → RawSample
  | 0 => ⟨0, 0, 0, 0, 0, 0⟩
  | n + 1 =>
    let s := calibSums raw n
    let t := raw n
    ⟨s.ax + t.ax, s.ay + t.ay, s.az + t.az, s.gx + t.gx, s.gy + t.gy, s.gz + t.gz⟩

/-- MPU6500::calibrate: 300 samples are summed, each offset is the
i32-truncating mean of its column (Int.tdiv matches Rust i32 division),
and the Z accel offset then has the 1 g raw count subtracted. -/
def calibrate (raw : ℕ → RawSample) (accel_range : ℕ) : CalibrationData :=
  let sums := calibSums raw 300
  { accel_offsets :=
      (sums.ax.tdiv 300, sums.ay.tdiv 300,
        sums.az.tdiv 300 - gravityCount accel_range),
    gyro_offsets := (sums.gx.tdiv 300, sums.gy.tdiv 300, sums.gz.tdiv 300) }

/-- The loop sums equal the column sums over exactly the first n samples. -/
theorem calibSums_eq (raw : ℕ → RawSample) : ∀ n : ℕ,
    calibSums raw n =
      ⟨∑ t ∈ Finset.range n, (raw t).ax, ∑ t ∈ Finset.range n, (raw t).ay,
        ∑ t ∈ Finset.range n, (raw t).az, ∑ t ∈ Finset.range n, (raw t).gx,
        ∑ t ∈ Finset.range n, (raw t).gy, ∑ t ∈ Finset.range n, (raw t).gz⟩ := by
  intro n
  induction n with
  | zero => simp [calibSums]
  | succ n ih => simp [calibSums, Finset.sum_range_succ, ih]

/-- C3: calibration consumes exactly the first 300 six-axis samples, sets
every zero-offset to the truncating integer mean of its column, and then
subtracts from the Z accel offset the 1 g raw count of the configured range
(2048 / 4096 / 8192 / 16384 for 16 / 8 / 4 / 2 g, 2048 otherwise); in
particular for accel_range = 16 exactly 2048 is subtracted. -/
theorem mpu_calibrate_spec (raw : ℕ → RawSample) (accel_range : ℕ) :
    calibrate raw accel_range =
      { accel_offsets :=
          ((∑ t ∈ Finset.range 300, (raw t).ax).tdiv 300,
            (∑ t ∈ Finset.range 300, (raw t).ay).tdiv 300,
            (∑ t ∈ Finset.range 300, (raw t).az).tdiv 300
              - gravityCountRef accel_range),
        gyro_offsets :=
          ((∑ t ∈ Finset.range 300, (raw t).gx).tdiv 300,
            (∑ t ∈ Finset.range 300, (raw t).gy).tdiv 300,
            (∑ t ∈ Finset.range 300, (raw t).gz).tdiv 300) } ∧
    (calibrate raw 16).accel_offsets.2.2
      = (∑ t ∈ Finset.range 300, (raw t).az).tdiv 300 - 2048 := by
  constructor
  · unfold calibrate
    rw [calibSums_eq raw 300, gravityCount_eq_ref]
  · unfold calibrate
    rw [calibSums_eq raw 300]
    rfl

/-- MPU6500Settings (the fields the embedded computations use). -/
structure MPUSettings where
  accel_range : ℕ
  gyro_range : ℕ
  sample_rate : ℕ
deriving DecidableEq

/-- Rust unsigned subtraction under its no-overflow contract: defined only
when no underflow occurs. -/
def checkedSub (a b : ℕ) : Option ℕ :=
  if b ≤ a then some (a - b) else none

/-- The sample-rate divider computation of MPU6500::init,
(1000 / sample_rate as u32 - 1) as u8, with the two Rust arithmetic fault
conditions made explicit: division by zero when sample_rate = 0, and
unsigned underflow of the subtraction when the quotient is 0. The cast to
u8 is reduction mod 256. -/
def sampleRateDiv (sample_rate : ℕ) : Option ℕ :=
  if sample_rate = 0 then none
  else
    match checkedSub (1000 / sample_rate) 1 with
    | none => none
    | some d => some (d % 256)

/-- Accelerometer range configuration byte (the match in MPU6500::init). -/
def accelConfigByte (accel_range : ℕ) : ℕ :=
  match accel_range with
  | 16 => 0x18
  | 8 => 0x10
  | 4 => 0x08
  | 2 => 0x00
  | _ => 0x18

/-- Gyroscope range configuration byte (the match in MPU6500::init). -/
def gyroConfigByte (gyro_range : ℕ) : ℕ :=
  match gyro_range with
  | 2000 => 0x18
  | 1000 => 0x10
  | 500 => 0x08
  | 250 => 0x00
  | _ => 0x18

/-- The (register, byte) write sequence of MPU6500::init: wake 0x6B, then
the sample-rate divider to 0x19, then accel config to 0x1C, then gyro
config to 0x1B. None when the divider computation faults. -/
def initWrites (s : MPUSettings) : Option (List (ℕ × ℕ)) :=
  match sampleRateDiv s.sample_rate with
  | none => none
  | some d =>
    some [(0x6B, 0x00), (0x19, d), (0x1C, accelConfigByte s.accel_range),
      (0x1B, gyroConfigByte s.gyro_range)]

/-- Accel byte table written from the words of the specification
(claim C4): 0x00/0x08/0x10/0x18 for 2/4/8/16 g, 0x18 for any other value. -/
def accelByteRef (accel_range : ℕ) : ℕ :=
  if accel_range = 2 then 0x00
  else if accel_range = 4 then 0x08
  else if accel_range = 8 then 0x10
  else if accel_range = 16 then 0x18
  else 0x18

/-- Gyro byte table written from the words of the specification (claim C4):
0x00/0x08/0x10/0x18 for 250/500/1000/2000 °/s, 0x18 for any other value. -/
def gyroByteRef (gyro_range : ℕ) : ℕ :=
  if gyro_range = 250 then 0x00
  else if gyro_range = 500 then 0x08
  else if gyro_range = 1000 then 0x10
  else if gyro_range = 2000 then 0x18
  else 0x18

/-- The source accel table and the specification table agree. -/
theorem accelConfigByte_eq_ref (n : ℕ) : accelConfigByte n = accelByteRef n := by
  unfold accelConfigByte accelByteRef
  split <;> simp_all

/-- The source gyro table and the specification table agree. -/
theorem gyroConfigByte_eq_ref (n : ℕ) : gyroConfigByte n = gyroByteRef n := by
  unfold gyroConfigByte gyroByteRef
  split <;> simp_all

/-- C4: under the divider precondition 1 ≤ sample_rate ≤ 1000, bring-up
performs exactly the four writes: 0x00 to 0x6B, the byte
(1000 / sample_rate) − 1 truncated to a byte to 0x19, the accel range byte
to 0x1C and the gyro range byte to 0x1B (range bytes per the table, with
unknown values defaulting to 0x18). -/
theorem mpu_init_writes (s : MPUSettings)
    (h1 : 1 ≤ s.sample_rate) (h2 : s.sample_rate ≤ 1000) :
    initWrites s = some [(0x6B, 0x00), (0x19, (1000 / s.sample_rate - 1) % 256),
      (0x1C, accelByteRef s.accel_range), (0x1B, gyroByteRef s.gyro_range)] := by
  have hq : 1 ≤ 1000 / s.sample_rate :=
    (Nat.one_le_div_iff (by omega)).mpr h2
  unfold initWrites sampleRateDiv checkedSub
  rw [if_neg (by omega), if_pos hq]
  simp only [accelConfigByte_eq_ref, gyroConfigByte_eq_ref]

/-- C4 witness: sample_rate = 100 yields divider 9; accel_range = 8 and
gyro_range = 1000 yield 0x10 for both config registers. -/
theorem mpu_init_writes_witness :
    initWrites ⟨8, 1000, 100⟩
      = some [(0x6B, 0x00), (0x19, 9), (0x1C, 0x10), (0x1B, 0x10)] := by
  have h := mpu_init_writes ⟨8, 1000, 100⟩ (by decide) (by decide)
  rw [h]
  decide

/-- C10: the divider computation of init is well defined exactly for
1 ≤ sample_rate ≤ 1000: sample_rate = 0 divides by zero, and any
sample_rate > 1000 makes the quotient 0, whose unsigned decrement
underflows. -/
theorem sampleRateDiv_defined_iff :
    (∀ s : ℕ, (sampleRateDiv s).isSome = true ↔ (1 ≤ s ∧ s ≤ 1000)) ∧
    sampleRateDiv 0 = none ∧
    (∀ s : ℕ, 1000 < s → 1000 / s = 0 ∧ checkedSub (1000 / s) 1 = none ∧
      sampleRateDiv s = none) := by
  refine ⟨?_, rfl, ?_⟩
  · intro s
    unfold sampleRateDiv checkedSub
    constructor
    · intro h
      by_cases hs : s = 0
      · simp [hs] at h
      · rw [if_neg hs] at h
        by_cases hq : 1 ≤ 1000 / s
        · have : s ≤ 1000 := by
            by_contra hgt
            have : 1000 / s = 0 := Nat.div_eq_of_lt (by omega)
            omega
          exact ⟨by omega, this⟩
        · rw [if_neg hq] at h
          simp at h
    · rintro ⟨h1, h2⟩
      have hq : 1 ≤ 1000 / s := (Nat.one_le_div_iff (by omega)).mpr h2
      rw [if_neg (by omega), if_pos hq]
      rfl
  · intro s hs
    have hz : 1000 / s = 0 := Nat.div_eq_of_lt (by omega)
    refine ⟨hz, ?_, ?_⟩
    · unfold checkedSub
      rw [hz, if_neg (by omega)]
    · unfold sampleRateDiv checkedSub
      rw [if_neg (by omega), hz, if_neg (by omega)]

/-- C10 witness: concrete instances of the divider domain
characterization. -/
theorem sampleRateDiv_defined_iff_witness :
    (sampleRateDiv 500).isSome = true ∧ (sampleRateDiv 1001).isSome ≠ true ∧
    sampleRateDiv 0 = none ∧
    (1000 / 1001 = 0 ∧ checkedSub (1000 / 1001) 1 = none ∧
      sampleRateDiv 1001 = none) := by
  refine ⟨(sampleRateDiv_defined_iff.1 500).mpr (by decide), ?_,
    sampleRateDiv_defined_iff.2.1, sampleRateDiv_defined_iff.2.2 1001 (by decide)⟩
  intro h
  have := (sampleRateDiv_defined_iff.1 1001).mp h
  omega

/-- Accelerometer LSB-per-g scale (the match in MPU6500::read). -/
def accelScale (accel_range : ℕ) : ℚ :=
  match accel_range with
  | 16 => 2048
  | 8 => 4096
  | 4 => 8192
  | 2 => 16384
  | _ => 2048

/-- Gyroscope LSB-per-(°/s) scale (the match in MPU6500::read);
16.4 = 164/10, 32.8 = 328/10, 65.6 = 656/10, 131.2 = 1312/10. -/
def gyroScale (gyro_range : ℕ) : ℚ :=
  match gyro_range with
  | 2000 => 164/10
  | 1000 => 328/10
  | 500 => 656/10
  | 250 => 1312/10
  | _ => 164/10

/-- The state of the MPU6500 driver that the per-tick read uses: settings,
calibration offsets and the two banks of three filters (accel and gyro),
each as an (x, y, z) triple. -/
structure MPU6500State where
  settings : MPUSettings
  calibration : CalibrationData
  accel_filters : KalmanFilter1D × KalmanFilter1D × KalmanFilter1D
  gyro_filters : KalmanFilter1D × KalmanFilter1D × KalmanFilter1D

/-- The filter banks constructed by MPU6500::new: accel filters with
(q, r) = (0.0001, 0.0025), gyro filters with (q, r) = (0.0001, 0.003). -/
def mpuFreshFilters : MPU6500State → Prop := fun st =>
  st.accel_filters = (KalmanFilter1D.new (1/10000) (1/400),
    KalmanFilter1D.new (1/10000) (1/400), KalmanFilter1D.new (1/10000) (1/400)) ∧
  st.gyro_filters = (KalmanFilter1D.new (1/10000) (3/1000),
    KalmanFilter1D.new (1/10000) (3/1000), KalmanFilter1D.new (1/10000) (3/1000))

/-- MPU6500::read on one raw six-axis sample: subtract each offset from the
i16 reading, scale to g (accel) or °/s (gyro), push each scaled value
through its axis filter, and collect the six key/value pairs in order
accel_x, accel_y, accel_z, gyro_x, gyro_y, gyro_z. Returns the value list
and the updated driver state. -/
def MPU6500.read (st : MPU6500State) (raw : RawSample) :
    List (String × ℚ) × MPU6500State :=
  let ascale := accelScale st.settings.accel_range
  let gscale := gyroScale st.settings.gyro_range
  let a1 := st.accel_filters.1.update
    (((raw.ax - st.calibration.accel_offsets.1 : ℤ) : ℚ) / ascale)
  let a2 := st.accel_filters.2.1.update
    (((raw.ay - st.calibration.accel_offsets.2.1 : ℤ) : ℚ) / ascale)
  let a3 := st.accel_filters.2.2.update
    (((raw.az - st.calibration.accel_offsets.2.2 : ℤ) : ℚ) / ascale)
  let g1 := st.gyro_filters.1.update
    (((raw.gx - st.calibration.gyro_offsets.1 : ℤ) : ℚ) / gscale)
  let g2 := st.gyro_filters.2.1.update
    (((raw.gy - st.calibration.gyro_offsets.2.1 : ℤ) : ℚ) / gscale)
  let g3 := st.gyro_filters.2.2.update
    (((raw.gz - st.calibration.gyro_offsets.2.2 : ℤ) : ℚ) / gscale)
  ([("accel_x", a1.1), ("accel_y", a2.1), ("accel_z", a3.1),
    ("gyro_x", g1.1), ("gyro_y", g2.1), ("gyro_z", g3.1)],
    { st with
      accel_filters := (a1.2, a2.2, a3.2)
      gyro_filters := (g1.2, g2.2, g3.2) })

/-- C2 counterexample: a concrete successful read (fresh driver state as
built by MPU6500::new, range 16 g / 2000 °/s, zero offsets, raw sample
(100, 0, 2048, 0, 0, 0)) emits exactly the six keys accel_x, accel_y,
accel_z, gyro_x, gyro_y, gyro_z — there is no g_force_x key (and hence no
mirrored linear-acceleration bank) in the Sample. -/
theorem mpu_read_no_g_force_cex :
    ((MPU6500.read
      { settings := ⟨16, 2000, 100⟩,
        calibration := ⟨(0, 0, 0), (0, 0, 0)⟩,
        accel_filters := (KalmanFilter1D.new (1/10000) (1/400),
          KalmanFilter1D.new (1/10000) (1/400), KalmanFilter1D.new (1/10000) (1/400)),
        gyro_filters := (KalmanFilter1D.new (1/10000) (3/1000),
          KalmanFilter1D.new (1/10000) (3/1000), KalmanFilter1D.new (1/10000) (3/1000)) }
      ⟨100, 0, 2048, 0, 0, 0⟩).1.map Prod.fst
      = ["accel_x", "accel_y", "accel_z", "gyro_x", "gyro_y", "gyro_z"]) ∧
    "g_force_x" ∉ ((MPU6500.read
      { settings := ⟨16, 2000, 100⟩,
        calibration := ⟨(0, 0, 0), (0, 0, 0)⟩,
        accel_filters := (KalmanFilter1D.new (1/10000) (1/400),
          KalmanFilter1D.new (1/10000) (1/400), KalmanFilter1D.new (1/10000) (1/400)),
        gyro_filters := (KalmanFilter1D.new (1/10000) (3/1000),
          KalmanFilter1D.new (1/10000) (3/1000), KalmanFilter1D.new (1/10000) (3/1000)) }
      ⟨100, 0, 2048, 0, 0, 0⟩).1.map Prod.fst) := by
  constructor
  · rfl
  · simp [MPU6500.read]

/-- C2 (amended): every successful read stores, under the keys
accel_x|y|z, the outputs of the single accelerometer filter bank applied
to the calibrated raw accelerations (rawᵢ − offsetᵢ)/scale, alongside the
three gyro keys; no gravity decomposition is performed, no second filter
bank exists, and no key g_force_x|y|z is ever present in a Sample. -/
theorem mpu_read_single_bank (st : MPU6500State) (raw : RawSample) :
    ((MPU6500.read st raw).1
      = [("accel_x", (st.accel_filters.1.update
            (((raw.ax - st.calibration.accel_offsets.1 : ℤ) : ℚ)
              / accelScale st.settings.accel_range)).1),
        ("accel_y", (st.accel_filters.2.1.update
            (((raw.ay - st.calibration.accel_offsets.2.1 : ℤ) : ℚ)
              / accelScale st.settings.accel_range)).1),
        ("accel_z", (st.accel_filters.2.2.update
            (((raw.az - st.calibration.accel_offsets.2.2 : ℤ) : ℚ)
              / accelScale st.settings.accel_range)).1),
        ("gyro_x", (st.gyro_filters.1.update
            (((raw.gx - st.calibration.gyro_offsets.1 : ℤ) : ℚ)
              / gyroScale st.settings.gyro_range)).1),
        ("gyro_y", (st.gyro_filters.2.1.update
            (((raw.gy - st.calibration.gyro_offsets.2.1 : ℤ) : ℚ)
              / gyroScale st.settings.gyro_range)).1),
        ("gyro_z", (st.gyro_filters.2.2.update
            (((raw.gz - st.calibration.gyro_offsets.2.2 : ℤ) : ℚ)
              / gyroScale st.settings.gyro_range)).1)]) ∧
    (∀ v : ℚ, ("g_force_x", v) ∉ (MPU6500.read st raw).1 ∧
      ("g_force_y", v) ∉ (MPU6500.read st raw).1 ∧
      ("g_force_z", v) ∉ (MPU6500.read st raw).1) := by
  refine ⟨rfl, ?_⟩
  intro v
  refine ⟨?_, ?_, ?_⟩ <;> simp [MPU6500.read]

/-- The key scan of MPU6500::calculate_angles: walk the key/value list,
record accel_x/accel_y/accel_z values into the triple, and set the
has-accel flag only when an accel_x key is seen (exactly as the Rust match
does). -/
def scanAccel : List (String × ℝ) → ((ℝ × ℝ × ℝ) × Bool) → ((ℝ × ℝ × ℝ) × Bool)
  | [], st => st
  | (key, v) :: rest, ((x, y, z), h) =>
    scanAccel rest
      (if key = "accel_x" then ((v, y, z), true)
       else if key = "accel_y" then ((x, v, z), h)
       else if key = "accel_z" then ((x, y, v), h)
       else ((x, y, z), h))

/-- MPU6500::calculate_angles: none when no accel_x key was seen, otherwise
the pair (lean angle, bank angle) with lean = atan(ay/√(ax²+az²))·180/π and
bank = atan(ax/|az|)·180/π. Real-number model of the f64 code. -/
noncomputable def calculate_angles (values : List (String × ℝ)) : Option (ℝ × ℝ) :=
  let st := scanAccel values ((0, 0, 0), false)
  if st.2 = false then none
  else
    let ax := st.1.1
    let ay := st.1.2.1
    let az := st.1.2.2
    let ax2 := ax * ax
    let az2 := az * az
    some (Real.arctan (ay / Real.sqrt (ax2 + az2)) * 180 / Real.pi,
      Real.arctan (ax / |az|) * 180 / Real.pi)

/-- C5 counterexample: with all three filtered accelerations exactly zero,
calculate_angles still emits angle values (the has-accel gate tests key
presence, not values; the Rust code divides 0/√0 here and emits NaN
angles, and in the real-number model it emits some pair). -/
theorem calculate_angles_zero_cex :
    calculate_angles [("accel_x", (0:ℝ)), ("accel_y", 0), ("accel_z", 0)] ≠ none := by
  simp [calculate_angles, scanAccel]

/-- scanAccel leaves the has-accel flag untouched when no accel_x key is
present. -/
theorem scanAccel_flag : ∀ (vals : List (String × ℝ)) (t : ℝ × ℝ × ℝ) (h : Bool),
    (∀ kv ∈ vals, kv.1 ≠ "accel_x") → (scanAccel vals (t, h)).2 = h := by
  intro vals
  induction vals with
  | nil => intros; rfl
  | cons kv rest ih =>
    intro t h hno
    obtain ⟨key, v⟩ := kv
    obtain ⟨x, y, z⟩ := t
    have hkey : key ≠ "accel_x" := hno (key, v) (by simp)
    simp only [scanAccel, if_neg hkey]
    split_ifs <;> exact ih _ _ (fun kv2 hm => hno kv2 (by simp [hm]))

/-- C5 (amended): on the value list a read produces (accel then gyro keys),
the lean angle is atan(ay/√(ax²+az²)) in degrees and the bank angle is
atan(ax/|az|) in degrees, for all values of the filtered accelerations —
including all-zero; angles are omitted exactly when no accel_x key is
present in the list. -/
theorem calculate_angles_formulas (a b c gx gy gz : ℝ) :
    (calculate_angles [("accel_x", a), ("accel_y", b), ("accel_z", c),
        ("gyro_x", gx), ("gyro_y", gy), ("gyro_z", gz)]
      = some (Real.arctan (b / Real.sqrt (a * a + c * c)) * 180 / Real.pi,
          Real.arctan (a / |c|) * 180 / Real.pi)) ∧
    (∀ vals : List (String × ℝ), (∀ kv ∈ vals, kv.1 ≠ "accel_x") →
      calculate_angles vals = none) := by
  constructor
  · simp [calculate_angles, scanAccel]
  · intro vals hno
    unfold calculate_angles
    dsimp only
    rw [scanAccel_flag vals (0, 0, 0) false hno]
    rfl

/-- A device as the service loop sees it: name, enabled flag, and its
internal driver state (filters and the like), abstracted as a type
parameter. -/
structure SensorDevice (σ : Type) where
  name : String
  enabled : Bool
  state : σ

/-- SensorService::read_sensors for one tick: iterate the devices in order,
skip disabled ones, call read on each enabled device (read returns its
outcome together with the successor driver state), collect (name, data)
pairs for successes and (name, error) log entries for failures, and keep
every device in the bus. Returns (results, logs, devices after the tick). -/
def readSensors {σ δ : Type} (read : σ → Except String δ × σ) :
    List (SensorDevice σ) →
      List (String × δ) × List (String × String) × List (SensorDevice σ)
  | [] => ([], [], [])
  | d :: ds =>
    if d.enabled then
      match (read d.state).1 with
      | Except.ok data =>
        ((d.name, data) :: (readSensors read ds).1,
          (readSensors read ds).2.1,
          { d with state := (read d.state).2 } :: (readSensors read ds).2.2)
      | Except.error e =>
        ((readSensors read ds).1,
          (d.name, e) :: (readSensors read ds).2.1,
          { d with state := (read d.state).2 } :: (readSensors read ds).2.2)
    else
      ((readSensors read ds).1, (readSensors read ds).2.1,
        d :: (readSensors read ds).2.2)

/-- The tick never removes or disables a device: names and enabled flags
after the tick are exactly those before the tick, in order. -/
theorem readSensors_devices {σ δ : Type} (read : σ → Except String δ × σ) :
    ∀ devs : List (SensorDevice σ),
      (readSensors read devs).2.2.map (fun d2 => (d2.name, d2.enabled))
        = devs.map (fun d2 => (d2.name, d2.enabled)) := by
  intro devs
  induction devs with
  | nil => rfl
  | cons d ds ih =>
    by_cases hen : d.enabled
    · cases hres : (read d.state).1 <;> simp [readSensors, hen, hres, ih]
    · simp [readSensors, hen, ih]

/-- Every result name is the name of some device in the list. -/
theorem readSensors_result_names {σ δ : Type} (read : σ → Except String δ × σ) :
    ∀ (devs : List (SensorDevice σ)) (pr : String × δ),
      pr ∈ (readSensors read devs).1 → pr.1 ∈ devs.map SensorDevice.name := by
  intro devs
  induction devs with
  | nil => intro pr h; simp [readSensors] at h
  | cons d ds ih =>
    intro pr h
    by_cases hen : d.enabled
    · cases hres : (read d.state).1 with
      | ok data =>
        rw [readSensors, if_pos hen, hres] at h
        rcases List.mem_cons.mp h with heq | hmem
        · subst heq; simp
        · simp [ih pr hmem]
      | error e =>
        rw [readSensors, if_pos hen, hres] at h
        simp [ih pr h]
    · rw [readSensors, if_neg hen] at h
      simp [ih pr h]

/-- An enabled device whose read succeeds contributes its sample. -/
theorem readSensors_ok_mem {σ δ : Type} (read : σ → Except String δ × σ) :
    ∀ (devs : List (SensorDevice σ)) (d2 : SensorDevice σ), d2 ∈ devs →
      d2.enabled = true → ∀ data : δ, (read d2.state).1 = Except.ok data →
      (d2.name, data) ∈ (readSensors read devs).1 := by
  intro devs
  induction devs with
  | nil => intro d2 h; simp at h
  | cons d ds ih =>
    intro d2 hmem hen data hok
    rcases List.mem_cons.mp hmem with rfl | hmem2
    · rw [readSensors, if_pos (by simp [hen]), hok]
      simp
    · by_cases hend : d.enabled
      · cases hres : (read d.state).1 with
        | ok data2 =>
          rw [readSensors, if_pos hend, hres]
          simp only [List.mem_cons]
          exact Or.inr (ih d2 hmem2 hen data hok)
        | error e =>
          rw [readSensors, if_pos hend, hres]
          exact ih d2 hmem2 hen data hok
      · rw [readSensors, if_neg hend]
        exact ih d2 hmem2 hen data hok

/-- An enabled device whose read fails contributes its named log entry. -/
theorem readSensors_err_log {σ δ : Type} (read : σ → Except String δ × σ) :
    ∀ (devs : List (SensorDevice σ)) (d2 : SensorDevice σ), d2 ∈ devs →
      d2.enabled = true → ∀ e : String, (read d2.state).1 = Except.error e →
      (d2.name, e) ∈ (readSensors read devs).2.1 := by
  intro devs
  induction devs with
  | nil => intro d2 h; simp at h
  | cons d ds ih =>
    intro d2 hmem hen e herr
    rcases List.mem_cons.mp hmem with rfl | hmem2
    · rw [readSensors, if_pos (by simp [hen]), herr]
      simp
    · by_cases hend : d.enabled
      · cases hres : (read d.state).1 with
        | ok data2 =>
          rw [readSensors, if_pos hend, hres]
          exact ih d2 hmem2 hen e herr
        | error e2 =>
          rw [readSensors, if_pos hend, hres]
          simp only [List.mem_cons]
          exact Or.inr (ih d2 hmem2 hen e herr)
      · rw [readSensors, if_neg hend]
        exact ih d2 hmem2 hen e herr

/-- With distinct device names, a device whose read fails contributes no
sample at all this tick. -/
theorem readSensors_err_no_sample {σ δ : Type} (read : σ → Except String δ × σ) :
    ∀ (devs : List (SensorDevice σ)) (d2 : SensorDevice σ),
      (devs.map SensorDevice.name).Nodup → d2 ∈ devs →
      ∀ e : String, (read d2.state).1 = Except.error e →
      ∀ data : δ, (d2.name, data) ∉ (readSensors read devs).1 := by
  intro devs
  induction devs with
  | nil => intro d2 _ h; simp at h
  | cons d ds ih =>
    intro d2 hnodup hmem e herr data hin
    have hnodup2 : (ds.map SensorDevice.name).Nodup :=
      (List.nodup_cons.mp hnodup).2
    have hhead : d.name ∉ ds.map SensorDevice.name :=
      (List.nodup_cons.mp hnodup).1
    rcases List.mem_cons.mp hmem with rfl | hmem2
    · by_cases hen : d2.enabled
      · rw [readSensors, if_pos hen, herr] at hin
        have := readSensors_result_names read ds (d2.name, data) hin
        exact hhead this
      · rw [readSensors, if_neg hen] at hin
        have := readSensors_result_names read ds (d2.name, data) hin
        exact hhead this
    · have hname : d2.name ≠ d.name := by
        intro heq
        exact hhead (heq ▸ List.mem_map_of_mem SensorDevice.name hmem2)
      by_cases hend : d.enabled
      · cases hres : (read d.state).1 with
        | ok data2 =>
          rw [readSensors, if_pos hend, hres] at hin
          rcases List.mem_cons.mp hin with heq | hin2
          · exact hname (congrArg Prod.fst heq)
          · exact ih d2 hnodup2 hmem2 e herr data hin2
        | error e2 =>
          rw [readSensors, if_pos hend, hres] at hin
          exact ih d2 hnodup2 hmem2 e herr data hin
      · rw [readSensors, if_neg hend] at hin
        exact ih d2 hnodup2 hmem2 e herr data hin

/-- C8: if the read of an enabled device fails during a tick, the error is
logged with the device name, no sample is produced for that device this
tick, and the device stays in the bus with its name and enabled flag
intact (so the next tick reads it again); meanwhile every other enabled
device whose read succeeds still delivers its sample — the tick function
is total and never aborts on a single failure. -/
theorem read_sensors_resilient {σ δ : Type} (read : σ → Except String δ × σ)
    (devs : List (SensorDevice σ)) (d : SensorDevice σ) (e : String)
    (hnodup : (devs.map SensorDevice.name).Nodup)
    (hd : d ∈ devs) (hen : d.enabled = true)
    (herr : (read d.state).1 = Except.error e) :
    ((d.name, e) ∈ (readSensors read devs).2.1) ∧
    (∀ data : δ, (d.name, data) ∉ (readSensors read devs).1) ∧
    ((readSensors read devs).2.2.map (fun d2 => (d2.name, d2.enabled))
      = devs.map (fun d2 => (d2.name, d2.enabled))) ∧
    (∀ d2 ∈ devs, d2.enabled = true → ∀ data : δ,
      (read d2.state).1 = Except.ok data →
      (d2.name, data) ∈ (readSensors read devs).1) :=
  ⟨readSensors_err_log read devs d hd hen e herr,
    fun data => readSensors_err_no_sample read devs d hnodup hd e herr data,
    readSensors_devices read devs,
    fun d2 hd2 hen2 data hok => readSensors_ok_mem read devs d2 hd2 hen2 data hok⟩

/-- A concrete read outcome map for the C8 witness: state 0 fails with
boom, any other state succeeds and advances. -/
def specimenRead : ℕ → Except String ℕ × ℕ :=
  fun s => if s = 0 then (Except.error "boom", s) else (Except.ok s, s + 1)

/-- Two concrete enabled devices for the C8 witness. -/
def specimenDevices : List (SensorDevice ℕ) :=
  [⟨"a", true, 0⟩, ⟨"b", true, 1⟩]

/-- C8 witness: two enabled devices named a and b; the read of a fails
with boom while the read of b succeeds; the tick logs (a, boom), produces
no sample for a, keeps both devices, and still delivers the sample of b. -/
theorem read_sensors_resilient_witness :
    (("a", "boom") ∈ (readSensors specimenRead specimenDevices).2.1) ∧
    (∀ data : ℕ, ("a", data) ∉ (readSensors specimenRead specimenDevices).1) ∧
    ((readSensors specimenRead specimenDevices).2.2.map
        (fun d2 => (d2.name, d2.enabled))
      = specimenDevices.map (fun d2 => (d2.name, d2.enabled))) ∧
    (∀ d2 ∈ specimenDevices, d2.enabled = true → ∀ data : ℕ,
      (specimenRead d2.state).1 = Except.ok data →
      (d2.name, data) ∈ (readSensors specimenRead specimenDevices).1) :=
  read_sensors_resilient specimenRead specimenDevices ⟨"a", true, 0⟩ "boom"
    (by simp [specimenDevices]) (by simp [specimenDevices]) rfl rfl

/-- One loop-head observation of run_daemon: the wall-clock time at loop
head, whether the publisher reports connected, and whether a reconnect
attempt (if made) would succeed. -/
structure LoopInput where
  time : ℕ
  connected : Bool
  reconnectOk : Bool
deriving DecidableEq

/-- The reconnect gate at one loop head (run_daemon): attempt exactly when
the publisher is disconnected and strictly more than delay has elapsed
since last_reconnect_attempt; the attempt timestamp is recorded only when
the attempt fails (the Err branch of the source), matching the source,
which leaves last_reconnect_attempt untouched on success. Returns
(attempted, new last_reconnect_attempt). -/
def reconnectStep (delay last : ℕ) (inp : LoopInput) : Bool × ℕ :=
  if inp.connected = false ∧ delay < inp.time - last then
    (true, if inp.reconnectOk then last else inp.time)
  else
    (false, last)

/-- The attempt times produced by running the daemon loop heads in order,
starting from last_reconnect_attempt = t0 (Instant::now() before the
loop). -/
def runReconnects (delay : ℕ) : ℕ → List LoopInput → List ℕ
  | _, [] => []
  | last, inp :: rest =>
    if (reconnectStep delay last inp).1 then
      inp.time :: runReconnects delay (reconnectStep delay last inp).2 rest
    else
      runReconnects delay (reconnectStep delay last inp).2 rest

/-- C9 counterexample: with reconnect_delay = 1000 and a sink that stays
disconnected, (a) two successful-but-still-disconnected attempts occur at
1001 ms and 1002 ms — two attempts inside one 1000 ms window, because the
source resets the attempt timer only on failure; (b) with a failed attempt
at 1001 ms, the next head at 2001 ms (exactly 1000 ms later) does not
attempt, because the source requires strictly more than the delay. -/
theorem reconnect_gating_cex :
    (runReconnects 1000 0 [⟨1001, false, true⟩, ⟨1002, false, true⟩]
        = [1001, 1002] ∧ 1002 - 1001 ≤ 1000) ∧
    runReconnects 1000 0 [⟨1001, false, false⟩, ⟨2001, false, false⟩] = [1001] := by
  decide

/-- C9 (amended): (1) at each loop head a reconnect is attempted exactly
when the publisher reports disconnected and strictly more than
reconnect_delay has elapsed since the recorded last attempt; (2) when every
attempt fails (the only case in which the source records the attempt
time), consecutive attempt times — including the delay from loop start —
are separated by strictly more than reconnect_delay, so at most one
attempt falls inside any window of length reconnect_delay. -/
theorem reconnect_gating (delay : ℕ) :
    (∀ (last : ℕ) (inp : LoopInput),
      (reconnectStep delay last inp).1 = true ↔
        (inp.connected = false ∧ delay < inp.time - last)) ∧
    (∀ (t0 : ℕ) (inputs : List LoopInput),
      (∀ i ∈ inputs, i.reconnectOk = false) →
      List.Pairwise (fun a b => a ≤ b) (t0 :: inputs.map LoopInput.time) →
      List.Chain (fun a b => delay < b - a) t0 (runReconnects delay t0 inputs)) := by
  constructor
  · intro last inp
    unfold reconnectStep
    split_ifs with h <;> simp [h]
  · intro t0 inputs
    induction inputs generalizing t0 with
    | nil => intro _ _; exact List.Chain.nil
    | cons inp rest ih =>
      intro hfail hmono
      have hok : inp.reconnectOk = false := hfail inp (by simp)
      rw [List.pairwise_cons] at hmono
      obtain ⟨hle, hmono2⟩ := hmono
      rw [runReconnects]
      by_cases hc : inp.connected = false ∧ delay < inp.time - t0
      · have hstep : reconnectStep delay t0 inp = (true, inp.time) := by
          unfold reconnectStep
          rw [if_pos hc, hok]
          rfl
        rw [hstep]
        simp only [if_true]
        refine List.Chain.cons hc.2 ?_
        rw [List.map_cons] at hmono2
        exact ih inp.time (fun i hi => hfail i (by simp [hi])) hmono2
      · have hstep : reconnectStep delay t0 inp = (false, t0) := by
          unfold reconnectStep
          rw [if_neg hc]
        rw [hstep]
        simp only [Bool.false_eq_true, if_false]
        refine ih t0 (fun i hi => hfail i (by simp [hi])) ?_
        rw [List.map_cons] at hmono2
        rw [List.pairwise_cons] at hmono2 ⊢
        obtain ⟨hle2, hmono3⟩ := hmono2
        refine ⟨?_, hmono3⟩
        intro b hb
        have h1 : t0 ≤ inp.time := hle inp.time (by simp)
        exact le_trans h1 (hle2 b hb)

/-- C9 witness: delay 1000, start 0, failed attempts offered at heads 1001
and 2500: both are attempted and consecutive attempt times are more than
1000 apart. -/
theorem reconnect_gating_witness :
    ((reconnectStep 1000 0 ⟨1001, false, false⟩).1 = true ↔
      ((⟨1001, false, false⟩ : LoopInput).connected = false ∧
        1000 < (⟨1001, false, false⟩ : LoopInput).time - 0)) ∧
    List.Chain (fun a b => 1000 < b - a) 0
      (runReconnects 1000 0 [⟨1001, false, false⟩, ⟨2500, false, false⟩]) :=
  ⟨(reconnect_gating 1000).1 0 ⟨1001, false, false⟩,
    (reconnect_gating 1000).2 0 [⟨1001, false, false⟩, ⟨2500, false, false⟩]
      (by decide) (by decide)⟩

/-- C5 witness: level attitude (0, 0, 1) yields the formula values (both
angles 0 after evaluation of atan 0), and a list with only a gyro key
yields no angles. -/
theorem calculate_angles_formulas_witness :
    (calculate_angles [("accel_x", (0:ℝ)), ("accel_y", 0), ("accel_z", 1),
        ("gyro_x", 0), ("gyro_y", 0), ("gyro_z", 0)]
      = some (Real.arctan (0 / Real.sqrt (0 * 0 + 1 * 1)) * 180 / Real.pi,
          Real.arctan (0 / |(1:ℝ)|) * 180 / Real.pi)) ∧
    calculate_angles [("gyro_x", (0:ℝ))] = none :=
  ⟨(calculate_angles_formulas 0 0 1 0 0 0).1,
    (calculate_angles_formulas 0 0 1 0 0 0).2 [("gyro_x", 0)] (by simp)⟩
